import Mathlib

set_option maxRecDepth 100000

/-!
Verification development for the xela encrypted-vault core.

The embedding mirrors two Go source units:
  - the superblock codec (package crypto): XelaDecrypter.DecryptSuperblock and
    XelaEncrypter.Encrypt, together with the crypto/cipher CBC semantics they
    invoke (including the run-time panics of CryptBlocks and of Go slice
    expressions, modelled as a distinct outcome);
  - the vault decorator (package cryptvault): Open, List, Create, Write,
    with the absent crypt package functions (DeriveKey, NewEncrypter,
    NewDecrypter, filename and file codecs) taken as parameters or, where a
    concrete contract is needed, modelled from the spec.

Bytes are modelled as natural numbers; byte strings as lists. The AES-256
block cipher for a fixed key is an abstract function on 16-byte blocks, since
no claim depends on its internals.
-/

namespace Xela

/-- Outcome of a Go call: a normal result, a returned non-nil error value, or
a run-time panic. A panic is kept distinct from a returned error because the
Go code under study reaches both. -/
inductive GoResult (α : Type) where
  | ok : α → GoResult α
  | goError : String → GoResult α
  | panicked : String → GoResult α
deriving DecidableEq

/-- Error message of DecryptSuperblock on a size mismatch (part_000 line 45). -/
def sizeErrMsg : String := "xela/crypto: incorrect size for src or dst parameter"

/-- Error message of NewXelaDecrypter on a wrong-size key (part_000 line 20). -/
def keySizeErrMsg : String := "xela/crypto: incorrect size for decryption key"

/-- Panic message of crypto/cipher CryptBlocks when the source length is not a
multiple of the block size. -/
def inputNotFullMsg : String := "crypto/cipher: input not full blocks"

/-- Panic message of crypto/cipher CryptBlocks when the destination is shorter
than the source. -/
def outputSmallerMsg : String := "crypto/cipher: output smaller than input"

/-- Panic message of an out-of-range Go slice expression. -/
def sliceBoundsMsg : String := "runtime error: slice bounds out of range"

/-- Pointwise XOR of two byte strings, as CBC mode combines a cipher block
with the previous ciphertext block. -/
def xorBytes (a b : List Nat) : List Nat :=
  List.zipWith Nat.xor a b

/-- Split a byte string into n consecutive 16-byte blocks. -/
def chunk16 : Nat → List Nat → List (List Nat)
  | 0, _ => []
  | n + 1, src => src.take 16 :: chunk16 n (src.drop 16)

/-- CBC decryption chain: each plaintext block is the block decryption of the
ciphertext block XORed with the previous ciphertext block; the first previous
block is the IV. D is the block-decryption function of the key. -/
def cbcDecChain (D : List Nat → List Nat) : List Nat → List (List Nat) → List Nat
  | _, [] => []
  | prev, c :: rest => xorBytes (D c) prev ++ cbcDecChain D c rest

/-- CBC encryption chain: each ciphertext block is the block encryption of the
plaintext block XORed with the previous ciphertext block; the first previous
block is the IV. E is the block-encryption function of the key. -/
def cbcEncChain (E : List Nat → List Nat) : List Nat → List (List Nat) → List Nat
  | _, [] => []
  | prev, p :: rest => E (xorBytes p prev) ++ cbcEncChain E (E (xorBytes p prev)) rest

/-- crypto/cipher cbcDecrypter.CryptBlocks(dst, src) for block size 16: panics
if the source is not whole blocks, panics if the destination is shorter than
the source, returns with no effect on an empty source, and otherwise yields
the new dst contents (decrypted prefix, untouched tail) plus the mode's next
IV, which Go sets to the last ciphertext block of src. -/
def cryptBlocksDec (D : List Nat → List Nat) (iv dst src : List Nat) :
    GoResult (List Nat × List Nat) :=
  if src.length % 16 ≠ 0 then GoResult.panicked inputNotFullMsg
  else if dst.length < src.length then GoResult.panicked outputSmallerMsg
  else if src.length = 0 then GoResult.ok (dst, iv)
  else GoResult.ok
    (cbcDecChain D iv (chunk16 (src.length / 16) src) ++ dst.drop src.length,
     src.drop (src.length - 16))

/-- crypto/cipher cbcEncrypter.CryptBlocks(dst, src) for block size 16, with
the same panic conditions; the mode's next IV is the last ciphertext block
written. -/
def cryptBlocksEnc (E : List Nat → List Nat) (iv dst src : List Nat) :
    GoResult (List Nat × List Nat) :=
  if src.length % 16 ≠ 0 then GoResult.panicked inputNotFullMsg
  else if dst.length < src.length then GoResult.panicked outputSmallerMsg
  else if src.length = 0 then GoResult.ok (dst, iv)
  else GoResult.ok
    (cbcEncChain E iv (chunk16 (src.length / 16) src) ++ dst.drop src.length,
     (cbcEncChain E iv (chunk16 (src.length / 16) src)).drop (src.length - 16))

/-- Lines 49-61 of part_000: whichever branch runs, the CBC decrypter in use
afterwards has the given IV installed. The non-nil branch performs a type
assertion to the local settableIV interface, which requires a method
SetIV(iv) returning error; the standard library BlockMode values produced by
cipher.NewCBCDecrypter and NewCBCEncrypter have no such method, so the
assertion fails and the mode is reconstructed with cipher.NewCBCDecrypter.
The encrypter (lines 90-102) has the same shape. The state carried across
calls is the IV the mode currently holds. -/
def cbcInstall (st : Option (List Nat)) (iv : List Nat) : Option (List Nat) :=
  match st with
  | none => some iv
  | some _ => some iv

/-- XelaDecrypter.DecryptSuperblock (part_000 lines 43-66), as a function of
the block-decryption function D of the key, the decrypter's cached CBC state
(none when x.cbc is nil, otherwise the IV the mode holds), the destination
plaintext slice and the source ciphertext slice. Returns the new cached state
and the call outcome; on a non-ok outcome the destination is not written. -/
def DecryptSuperblock (D : List Nat → List Nat) (st : Option (List Nat))
    (plaintext ciphertext : List Nat) : Option (List Nat) × GoResult (List Nat) :=
  if ciphertext.length ≠ 256 ∨ plaintext.length ≠ 239 then
    (st, GoResult.goError sizeErrMsg)
  else
    match cryptBlocksDec D (ciphertext.take 16) plaintext (ciphertext.drop 16) with
    | GoResult.ok (dstOut, iv2) => (some iv2, GoResult.ok dstOut)
    | GoResult.goError e => (cbcInstall st (ciphertext.take 16), GoResult.goError e)
    | GoResult.panicked e => (cbcInstall st (ciphertext.take 16), GoResult.panicked e)

/-- A Go slice value: the visible bytes plus the capacity of its backing
array. For a byte slice created by make, the whole backing array is zeroed. -/
structure GoSlice where
  data : List Nat
  cap : Nat
deriving DecidableEq

/-- Go slice expression s[low:high]: legal exactly when low ≤ high and
high ≤ cap(s); an illegal pair of bounds is a run-time panic. Bytes past
len(s) are read from the zeroed backing array. -/
def sliceExpr (s : GoSlice) (low high : Nat) : GoResult (List Nat) :=
  if low ≤ high ∧ high ≤ s.cap then
    GoResult.ok (((s.data ++ List.replicate (s.cap - s.data.length) 0).drop low).take (high - low))
  else GoResult.panicked sliceBoundsMsg

/-- The superblock count XelaEncrypter.Encrypt computes at part_000 line 78:
blocksNeeded := len(plaintext)/239 + len(plaintext)%239. -/
def blocksNeeded (n : Nat) : Nat :=
  n / 239 + n % 239

/-- The loop of XelaEncrypter.Encrypt (part_000 lines 83-105), one iteration
per block index. ivGen i is the outcome of the rand.Read call of iteration i:
ok with the bytes read, or goError when the secure random source fails. The
second component of the result counts the rand.Read calls performed. Each
iteration, after a successful read, installs the fresh IV into the CBC
encrypter and then evaluates the arguments of CryptBlocks left to right: the
destination slice expression c[blockIndex*256+16 : blockIndex*256] has its
low bound above its high bound, so it panics; the remaining steps of the
iteration are modelled all the same. A write through that destination
sub-slice would land in the backing array past len(c) and leave the visible
bytes of c unchanged, c having been made with length 0. -/
def encryptLoop (E : List Nat → List Nat) (ivGen : Nat → GoResult (List Nat))
    (plaintext : List Nat) :
    GoSlice → Option (List Nat) → Nat → List Nat → GoResult (List Nat) × Nat
  | c, _, calls, [] => (GoResult.ok c.data, calls)
  | c, _, calls, bi :: rest =>
    match ivGen bi with
    | GoResult.goError e => (GoResult.goError e, calls + 1)
    | GoResult.panicked e => (GoResult.panicked e, calls + 1)
    | GoResult.ok iv =>
      match sliceExpr c (bi * 256 + 16) (bi * 256) with
      | GoResult.goError e => (GoResult.goError e, calls + 1)
      | GoResult.panicked e => (GoResult.panicked e, calls + 1)
      | GoResult.ok dst =>
        match sliceExpr ⟨plaintext, plaintext.length⟩ (bi * 239) ((bi + 1) * 239) with
        | GoResult.goError e => (GoResult.goError e, calls + 1)
        | GoResult.panicked e => (GoResult.panicked e, calls + 1)
        | GoResult.ok src =>
          match cryptBlocksEnc E iv dst src with
          | GoResult.goError e => (GoResult.goError e, calls + 1)
          | GoResult.panicked e => (GoResult.panicked e, calls + 1)
          | GoResult.ok (_, iv2) =>
            encryptLoop E ivGen plaintext c (some iv2) (calls + 1) rest

/-- XelaEncrypter.Encrypt (part_000 lines 76-108) with an instrumented result:
the outcome of the call paired with the number of rand.Read invocations. The
function sets the ciphertext to make([]byte, 0, blocksNeeded*256), a slice of
length 0 and capacity blocksNeeded*256, and runs the block loop; when the
loop completes it returns nil and the caller observes that slice. -/
def EncryptTraced (E : List Nat → List Nat) (ivGen : Nat → GoResult (List Nat))
    (plaintext : List Nat) : GoResult (List Nat) × Nat :=
  encryptLoop E ivGen plaintext ⟨[], blocksNeeded plaintext.length * 256⟩ none 0
    (List.range (blocksNeeded plaintext.length))

/-- XelaEncrypter.Encrypt: the call outcome, where an ok value is the
ciphertext the caller observes through the pointer argument. -/
def Encrypt (E : List Nat → List Nat) (ivGen : Nat → GoResult (List Nat))
    (plaintext : List Nat) : GoResult (List Nat) :=
  (EncryptTraced E ivGen plaintext).1

/-- A backend item reference: an opaque handle exposing a Name accessor. -/
structure InnerItemRef where
  name : String
deriving DecidableEq

/-- The decorator item reference of cryptvault: the inner reference plus the
decrypted name (cryptvault.go lines 19-22). -/
structure VaultItemRef where
  inner : InnerItemRef
  name : String
deriving DecidableEq

/-- Vault.decryptInnerRef (cryptvault.go lines 103-115), as a function of the
filename-decryption function of the session key. -/
def decryptInnerRef (decryptFilename : String → Except String String)
    (innerRef : InnerItemRef) : Except String VaultItemRef :=
  match decryptFilename innerRef.name with
  | Except.error e => Except.error e
  | Except.ok n => Except.ok ⟨innerRef, n⟩

/-- The loop of Vault.List (cryptvault.go lines 73-80): decrypt each entry in
order, returning the first failure and otherwise the accumulated entries. -/
def listLoop (decryptFilename : String → Except String String) :
    List InnerItemRef → Except String (List VaultItemRef)
  | [] => Except.ok []
  | r :: rest =>
    match decryptInnerRef decryptFilename r with
    | Except.error e => Except.error e
    | Except.ok item =>
      match listLoop decryptFilename rest with
      | Except.error e => Except.error e
      | Except.ok items => Except.ok (item :: items)

/-- Vault.List (cryptvault.go lines 67-83): delegate to the backend listing,
then decrypt every name. -/
def VaultList (decryptFilename : String → Except String String)
    (backendList : Except String (List InnerItemRef)) :
    Except String (List VaultItemRef) :=
  match backendList with
  | Except.error e => Except.error e
  | Except.ok repoItems => listLoop decryptFilename repoItems

/-- Vault.Create (cryptvault.go lines 89-101). The second component records
the names passed to backend Create, so that a call that never reaches the
backend yields the empty record. -/
def VaultCreate (encryptFilename : String → Except String String)
    (backendCreate : String → Except String InnerItemRef)
    (decryptFilename : String → Except String String)
    (name : String) : Except String VaultItemRef × List String :=
  match encryptFilename name with
  | Except.error e => (Except.error e, [])
  | Except.ok enc =>
    match backendCreate enc with
    | Except.error e => (Except.error e, [enc])
    | Except.ok repoItem => (decryptInnerRef decryptFilename repoItem, [enc])

/-- Vault.Write (cryptvault.go lines 126-133). The second component records
the ciphertexts passed to backend Write. -/
def VaultWrite (encryptFile : List Nat → Except String (List Nat))
    (backendWrite : List Nat → Except String Unit)
    (data : List Nat) : Except String Unit × List (List Nat) :=
  match encryptFile data with
  | Except.error e => (Except.error e, [])
  | Except.ok ciphertext => (backendWrite ciphertext, [ciphertext])

/-- The configuration record Open reads from crypt.json (cryptvault.go lines
35-38). Modelled from the spec: Salt and KDFParameters are small serializable
values; their concrete Go types live in the crypt package, which is not among
the sources, so both are modelled as byte strings whose Go zero value is the
empty string of bytes. -/
structure CryptConfig where
  salt : List Nat
  kdfParameters : List Nat
deriving DecidableEq

/-- The Go zero value of the configuration struct, which json.Unmarshal
leaves in place when it fails on malformed input. -/
def zeroCryptConfig : CryptConfig :=
  ⟨[], []⟩

/-- The codec pair a successful Open builds; each codec is identified by the
key it was built from. -/
structure VaultCodecs where
  encKey : List Nat
  decKey : List Nat
deriving DecidableEq

/-- Modelled from the spec: crypt.NewEncrypter is absent from the sources;
per the spec a codec constructor fails exactly when the key length is wrong,
matching NewXelaDecrypter in part_000 (lines 18-21), which demands 32 bytes. -/
def newEncrypter (key : List Nat) : Except String (List Nat) :=
  if key.length = 32 then Except.ok key else Except.error keySizeErrMsg

/-- Modelled from the spec: crypt.NewDecrypter, same contract as
newEncrypter. -/
def newDecrypter (key : List Nat) : Except String (List Nat) :=
  if key.length = 32 then Except.ok key else Except.error keySizeErrMsg

/-- Open (cryptvault.go lines 24-58), as a function of the derivation
function, the outcome of inner.Ref(root, crypt.json), the backend read, the
behaviour of json.Unmarshal on the bytes read, and the password. unmarshal
returns the struct contents Unmarshal leaves in the target together with the
error value it returns; line 39 of the source discards that error value, so
Open consults only the first component. DeriveKey is absent from the sources
and is passed in, constrained by the spec to be a deterministic function of
password, salt and KDF parameters. -/
def OpenVault (deriveKey : List Nat → List Nat → List Nat → List Nat)
    (refRes : Except String InnerItemRef)
    (readVault : InnerItemRef → Except String (List Nat))
    (unmarshal : List Nat → CryptConfig × Option String)
    (password : List Nat) : Except String VaultCodecs :=
  match refRes with
  | Except.error e => Except.error e
  | Except.ok cryptJsonRef =>
    match readVault cryptJsonRef with
    | Except.error e => Except.error e
    | Except.ok bytes =>
      match newEncrypter (deriveKey password (unmarshal bytes).1.salt
          (unmarshal bytes).1.kdfParameters) with
      | Except.error e => Except.error e
      | Except.ok ek =>
        match newDecrypter (deriveKey password (unmarshal bytes).1.salt
            (unmarshal bytes).1.kdfParameters) with
        | Except.error e => Except.error e
        | Except.ok dk => Except.ok ⟨ek, dk⟩

/-- A random source that always succeeds with a zero IV, standing in for a
healthy crypto/rand. -/
def zeroIVGen : Nat → GoResult (List Nat) :=
  fun _ => GoResult.ok (List.replicate 16 0)

/-- A random source whose first read fails, standing in for an exhausted or
broken entropy source. -/
def failIVGen : Nat → GoResult (List Nat) :=
  fun _ => GoResult.goError "xela test: entropy source failure"

/-- Concrete derivation function for the Open scenario: the key is the salt
padded with zeros to 32 bytes, so the derived key pins down which salt was
used. Modelled from the spec: deterministic, 32-byte result. -/
def saltDeriveKey : List Nat → List Nat → List Nat → List Nat :=
  fun _ salt _ => (salt ++ List.replicate 32 0).take 32

/-- An Unmarshal behaviour for malformed input: the target keeps its zero
value and a non-nil error is returned, as encoding/json does on a top-level
syntax error. -/
def malformedUnmarshal : List Nat → CryptConfig × Option String :=
  fun _ => (zeroCryptConfig, some "invalid character looking for beginning of value")

/-- A filename decryptor that rejects exactly the name bad, for witnesses. -/
def rejectBadDec : String → Except String String :=
  fun s => if s = "bad" then Except.error "xela test: corrupt name" else Except.ok s

/-- A filename encryptor that always fails, for witnesses. -/
def failEncName : String → Except String String :=
  fun _ => Except.error "xela test: filename encryption failure"

/-- A file encryptor that always fails, for witnesses. -/
def failEncFile : List Nat → Except String (List Nat) :=
  fun _ => Except.error "xela test: file encryption failure"

/-- A backend Create that succeeds and stores the name it was given, for
witnesses. -/
def okBackendCreate : String → Except String InnerItemRef :=
  fun s => Except.ok ⟨s⟩

/-- A backend Write that always succeeds, for witnesses. -/
def okBackendWrite : List Nat → Except String Unit :=
  fun _ => Except.ok ()

/-- Claim C1: decrypting the result of encrypting any plaintext recovers the
plaintext. The code refutes this for every non-empty plaintext: on the
one-byte plaintext 0x00, Encrypt panics evaluating the destination slice
expression c[16:0], so no ciphertext is ever produced and the round trip is
impossible; the panic contradicts the codec format the source file documents
in its own header comment. -/
theorem c1_encrypt_panics_on_one_byte :
    Encrypt id zeroIVGen [0] = GoResult.panicked sliceBoundsMsg := by
  decide

/-- Claim C2: the block-count formula of Encrypt, len/239 + len%239, is not
ceiling division: on a 241-byte plaintext it yields 3 where the ceiling is 2,
although the two particular cases the claim names, 239 bytes giving one
block and 240 bytes giving two, do hold. -/
theorem c2_blockcount_not_ceiling :
    blocksNeeded 241 = 3 ∧ (241 + 238) / 239 = 2 ∧
      blocksNeeded 239 = 1 ∧ blocksNeeded 240 = 2 := by
  decide

/-- Claim C3: on a 239-byte plaintext the code never produces the claimed
256-byte superblock buffer: the ciphertext is allocated with length 0, no IV
is ever copied into it, and the single loop iteration panics on the
destination slice expression after one successful random read. -/
theorem c3_encrypt_produces_no_superblock :
    EncryptTraced id zeroIVGen (List.replicate 239 0) =
      (GoResult.panicked sliceBoundsMsg, 1) := by
  decide

/-- Claim C4: on a well-sized pair of arguments, a 256-byte ciphertext and a
239-byte destination, DecryptSuperblock does not succeed: CryptBlocks is
handed a 240-byte source and the 239-byte destination, and crypto/cipher
panics because the output is smaller than the input; the recovered length
byte is never stripped. -/
theorem c4_decrypt_superblock_panics :
    (DecryptSuperblock id none (List.replicate 239 0) (List.replicate 256 0)).2 =
      GoResult.panicked outputSmallerMsg := by
  decide

/-- Claim C5: DecryptSuperblock returns the size error exactly when the
ciphertext is not 256 bytes long or the plaintext destination is not 239
bytes long; with well-sized arguments it never returns the size error. -/
theorem c5_size_error_iff_size_mismatch (D : List Nat → List Nat)
    (st : Option (List Nat)) (plaintext ciphertext : List Nat) :
    (DecryptSuperblock D st plaintext ciphertext).2 = GoResult.goError sizeErrMsg ↔
      ¬(ciphertext.length = 256 ∧ plaintext.length = 239) := by
  by_cases h : ciphertext.length = 256 ∧ plaintext.length = 239
  · obtain ⟨hc, hp⟩ := h
    have hcond : ¬(ciphertext.length ≠ 256 ∨ plaintext.length ≠ 239) := by
      simp [hc, hp]
    have hsrc : (ciphertext.drop 16).length = 240 := by
      simp [List.length_drop, hc]
    have hcb : cryptBlocksDec D (ciphertext.take 16) plaintext (ciphertext.drop 16) =
        GoResult.panicked outputSmallerMsg := by
      unfold cryptBlocksDec
      rw [hsrc, hp]
      norm_num
    simp [DecryptSuperblock, hcond, hcb, hc, hp]
  · have hcond : ciphertext.length ≠ 256 ∨ plaintext.length ≠ 239 := by
      tauto
    simp [DecryptSuperblock, hcond, h]

/-- Witness for claim C5 at a concrete input: a 255-byte ciphertext with a
well-sized destination is rejected with the size error. -/
theorem c5_witness :
    (DecryptSuperblock id none (List.replicate 239 0) (List.replicate 255 0)).2 =
      GoResult.goError sizeErrMsg :=
  (c5_size_error_iff_size_mismatch id none (List.replicate 239 0)
    (List.replicate 255 0)).mpr (by decide)

/-- Claim C6: refuted by the code. json.Unmarshal reports a syntax error for
the malformed crypt.json bytes, line 39 of cryptvault.go discards that error,
and Open proceeds to derive the key from the zero-valued salt and KDF
parameters and returns a usable vault instead of an error. The derivation
function used here exposes the salt through the key: the codecs returned hold
exactly the key of the empty default salt. -/
theorem c6_open_ignores_malformed_config :
    OpenVault saltDeriveKey (Except.ok ⟨"crypt.json"⟩)
      (fun _ => Except.ok [110, 111]) malformedUnmarshal [112, 119] =
      Except.ok ⟨List.replicate 32 0, List.replicate 32 0⟩ := by
  rfl

/-- Claim C7: Vault.List decrypts every name, fails the whole call when any
single name fails to decrypt, and otherwise returns one entry per backend
entry, pairing each inner reference with its decrypted name. -/
theorem c7_list_fail_fast (decryptFilename : String → Except String String)
    (repoItems : List InnerItemRef) :
    ((∃ r ∈ repoItems, ∃ e, decryptFilename r.name = Except.error e) →
      ∃ e, VaultList decryptFilename (Except.ok repoItems) = Except.error e) ∧
    ((∀ r ∈ repoItems, ∃ n, decryptFilename r.name = Except.ok n) →
      ∃ out, VaultList decryptFilename (Except.ok repoItems) = Except.ok out ∧
        out.length = repoItems.length ∧
        ∀ p ∈ List.zip repoItems out,
          p.2.inner = p.1 ∧ decryptFilename p.1.name = Except.ok p.2.name) := by
  have key : ∀ items : List InnerItemRef,
      ((∃ r ∈ items, ∃ e, decryptFilename r.name = Except.error e) →
        ∃ e, listLoop decryptFilename items = Except.error e) ∧
      ((∀ r ∈ items, ∃ n, decryptFilename r.name = Except.ok n) →
        ∃ out, listLoop decryptFilename items = Except.ok out ∧
          out.length = items.length ∧
          ∀ p ∈ List.zip items out,
            p.2.inner = p.1 ∧ decryptFilename p.1.name = Except.ok p.2.name) := by
    intro items
    induction items with
    | nil =>
      constructor
      · rintro ⟨r, hr, _⟩
        exact absurd hr (List.not_mem_nil r)
      · intro _
        exact ⟨[], rfl, rfl, fun p hp => absurd hp (List.not_mem_nil p)⟩
    | cons r rest ih =>
      constructor
      · rintro ⟨x, hx, e, he⟩
        rcases hdr : decryptFilename r.name with e0 | n0
        · exact ⟨e0, by simp [listLoop, decryptInnerRef, hdr]⟩
        · rcases List.mem_cons.mp hx with rfl | hxrest
          · rw [hdr] at he
            simp at he
          · rcases ih.1 ⟨x, hxrest, e, he⟩ with ⟨e1, hrest⟩
            exact ⟨e1, by simp [listLoop, decryptInnerRef, hdr, hrest]⟩
      · intro hall
        rcases hall r (List.mem_cons_self r rest) with ⟨n, hdr⟩
        rcases ih.2 (fun x hx => hall x (List.mem_cons_of_mem r hx)) with
          ⟨out, hout, hlen, hzip⟩
        refine ⟨⟨r, n⟩ :: out, ?_, ?_, ?_⟩
        · simp [listLoop, decryptInnerRef, hdr, hout]
        · simp [hlen]
        · intro p hp
          rcases List.mem_cons.mp (by simpa [List.zip_cons_cons] using hp) with hpr | hprest
          · rw [hpr]
            exact ⟨rfl, hdr⟩
          · exact hzip p hprest
  exact key repoItems

/-- Witness for claim C7 at a concrete input: a listing in which the second
name fails to decrypt makes the whole List call fail. -/
theorem c7_witness :
    ∃ e, VaultList rejectBadDec (Except.ok [⟨"a"⟩, ⟨"bad"⟩]) = Except.error e :=
  (c7_list_fail_fast rejectBadDec [⟨"a"⟩, ⟨"bad"⟩]).1
    ⟨⟨"bad"⟩, by decide, "xela test: corrupt name", by rfl⟩

/-- Claim C8: refuted by the code for multi-superblock plaintexts. On a
478-byte plaintext, which needs two superblocks, a healthy random source is
read exactly once before the loop panics on the destination slice
expression, so no IV is ever drawn for the second superblock; the part of
the claim about aborting is intact: when the random source fails on its
first read, Encrypt returns exactly that error. -/
theorem c8_one_random_read_then_panic :
    EncryptTraced id zeroIVGen (List.replicate 478 0) =
      (GoResult.panicked sliceBoundsMsg, 1) ∧
    Encrypt id failIVGen (List.replicate 478 0) =
      GoResult.goError "xela test: entropy source failure" := by
  decide

/-- Claim C9: the outcome DecryptSuperblock produces for a superblock, both
the returned value and the bytes written, is the same whatever CBC state the
decrypter cached from earlier calls: every call installs the IV of its own
superblock before deciphering, so decryption from any cached state agrees
with decryption from the fresh nil state. -/
theorem c9_decrypt_stateless (D : List Nat → List Nat) (st : Option (List Nat))
    (plaintext ciphertext : List Nat) :
    (DecryptSuperblock D st plaintext ciphertext).2 =
      (DecryptSuperblock D none plaintext ciphertext).2 := by
  by_cases hc : ciphertext.length ≠ 256 ∨ plaintext.length ≠ 239
  · simp [DecryptSuperblock, hc]
  · rcases hcb : cryptBlocksDec D (ciphertext.take 16) plaintext (ciphertext.drop 16) with
      v | e | e
    · rcases v with ⟨d, iv2⟩
      simp [DecryptSuperblock, hc, hcb]
    · simp [DecryptSuperblock, hc, hcb]
    · simp [DecryptSuperblock, hc, hcb]

/-- Claim C10: when the filename encryption of Vault.Create fails, the
backend Create is never invoked and the error is returned; when the file
encryption of Vault.Write fails, the backend Write is never invoked and the
error is returned. The empty call record asserts that the backend was not
reached. -/
theorem c10_encrypt_failure_skips_backend
    (encryptFilename : String → Except String String)
    (backendCreate : String → Except String InnerItemRef)
    (decryptFilename : String → Except String String)
    (name e : String)
    (encryptFile : List Nat → Except String (List Nat))
    (backendWrite : List Nat → Except String Unit)
    (data : List Nat) (e2 : String) :
    (encryptFilename name = Except.error e →
      VaultCreate encryptFilename backendCreate decryptFilename name =
        (Except.error e, [])) ∧
    (encryptFile data = Except.error e2 →
      VaultWrite encryptFile backendWrite data = (Except.error e2, [])) := by
  constructor
  · intro h
    simp [VaultCreate, h]
  · intro h
    simp [VaultWrite, h]

/-- Witness for claim C10 at concrete inputs: with failing filename and file
encryptors and healthy backends, Create and Write return the encryption
errors and the backend call records stay empty. -/
theorem c10_witness :
    VaultCreate failEncName okBackendCreate rejectBadDec "notes.txt" =
      (Except.error "xela test: filename encryption failure", []) ∧
    VaultWrite failEncFile okBackendWrite [104, 105] =
      (Except.error "xela test: file encryption failure", []) :=
  ⟨(c10_encrypt_failure_skips_backend failEncName okBackendCreate rejectBadDec
      "notes.txt" "xela test: filename encryption failure" failEncFile
      okBackendWrite [104, 105] "xela test: file encryption failure").1 rfl,
   (c10_encrypt_failure_skips_backend failEncName okBackendCreate rejectBadDec
      "notes.txt" "xela test: filename encryption failure" failEncFile
      okBackendWrite [104, 105] "xela test: file encryption failure").2 rfl⟩

end Xela
